import Mathlib

/-!
# Verification of the `llm-fns` conversational retry engine

Shallow embedding of the retry / structured-output repair core of the
`llm-fns` repository:

* `src/createLlmRetryClient.ts` — `constructLlmMessages`, `runPromptLoop`,
  the error classes `LlmRetryError`, `LlmRetryAttemptError`,
  `LlmRetryExhaustedError`;
* `src/createJsonSchemaLlmClient.ts` — `_tryToFixJson`, `_parseOrFixJson`,
  `_validateOrFix`, `processResponse` (the `validate` hook built by
  `promptJson`), `SchemaValidationError`;
* `src/retryUtils.ts` — `executeWithRetry` (the transport-level retry
  helper that implements exponential backoff with jitter);
* `LlmFatalError` is consumed by `createLlmRetryClient.ts` (constructed
  with `(message, cause, messages, rawResponse)`) but its class body is
  not part of the snapshot; its field layout is taken from that
  constructor call and from the spec's FatalError description.

External collaborators (the backend completion call, `JSON.parse`,
`Math.random`, network fetch of image URLs) are modelled as explicit
parameters/oracles; everything the repository itself implements is
translated function by function.  TS exceptions become `Except`/sum
results, `async` sequencing becomes ordinary sequencing, and each
backend invocation / timer suspension is recorded in an explicit event
trace so that call counts and delays can be stated.
-/

namespace LlmFns

set_option maxRecDepth 16384

/-! ## Messages and conversations -/

/-- Chat roles (`OpenAI.Chat.Completions.ChatCompletionMessageParam.role`). -/
inductive Role where
  | system
  | user
  | assistant
deriving DecidableEq, Repr

/-- One chat message.  `content` is `Option String`: `none` models a JS
`null`/`undefined` content (assistant messages returned by the backend can
have null content); messages built by the repository always carry a string. -/
structure Message where
  role : Role
  content : Option String
deriving DecidableEq, Repr

abbrev Conversation := List Message

def userMsg (s : String) : Message := ⟨Role.user, some s⟩
def systemMsg (s : String) : Message := ⟨Role.system, some s⟩
def assistantMsg (s : String) : Message := ⟨Role.assistant, some s⟩

/-- JS truthiness on an optional string: `null`, `undefined` and `""` are
falsy.  `strTruthy x` is `x` if it is a truthy string, otherwise `none`. -/
def strTruthy : Option String → Option String
  | some s => if s = "" then none else some s
  | none => none

/-- JS `a || b` on optional strings (first truthy value, else `none`). -/
def orTruthy (a b : Option String) : Option String :=
  match strTruthy a with
  | some s => some s
  | none => strTruthy b

/-- JS whitespace (`\s`), restricted to the ASCII whitespace characters;
the exotic Unicode space characters JS also accepts play no role in any
claim. -/
def isJsWs (c : Char) : Bool :=
  c = ' ' || c = '\t' || c = '\n' || c = '\r' || c = '\x0b' || c = '\x0c'

/-- JS `String.prototype.trim`: strip leading and trailing whitespace. -/
def jsTrim (s : String) : String :=
  String.mk (((s.toList.dropWhile isJsWs).reverse.dropWhile isJsWs).reverse)

/-! ## Completions (the backend's structured result) -/

/-- An entry of the nonstandard `message.images` array:
`image_url.url` when it is a string, `none` when it is not a string
(the `typeof imageUrl === 'string'` check in the source fails). -/
structure ImageEntry where
  url : Option String
deriving DecidableEq, Repr

/-- Model of `completion.choices[0]?.message` — the assistant message of the first
choice.  The repository only ever reads `choices[0]?.message`, its
`content`, and the nonstandard `images` field, so the completion is
modelled by exactly those. -/
structure AssistantMessage where
  content : Option String
  images : List ImageEntry := []
deriving DecidableEq, Repr

/-- A completion result.  `message = none` models `choices[0]?.message`
being absent (empty `choices` array). -/
structure Completion where
  message : Option AssistantMessage
deriving DecidableEq, Repr

/-- A stand-in for `JSON.stringify(completion)` (used only as the
`rawResponse` payload of "no text content" / "no image" errors; no claim
inspects its exact formatting, so a simple canonical rendering is used). -/
def Completion.jsonString (c : Completion) : String :=
  match c.message with
  | none => "\x7b\"choices\":[]\x7d"
  | some m =>
    "\x7b\"choices\":[\x7b\"message\":\x7b\"content\":" ++
      (match m.content with
       | none => "null"
       | some s => "\"" ++ s ++ "\"") ++ "\x7d\x7d]\x7d"

/-! ## Error values

TS throws arbitrary values; the values actually thrown and dispatched on
by this code are: `LlmRetryError`, `SchemaValidationError`, `SyntaxError`
(from `JSON.parse`), plain `Error`s, and `LlmFatalError`.  `BasicError`
covers the non-fatal ones; `Thrown` adds `LlmFatalError`. -/

/-- Model of `LlmRetryError.type` (createLlmRetryClient.ts line 14). -/
inductive RetryErrorType where
  | JSON_PARSE_ERROR
  | CUSTOM_ERROR
deriving DecidableEq, Repr

/-- The data of an `LlmRetryError` (createLlmRetryClient.ts lines 11-21).
`details` is `any` in the source; the only value ever put there by the
repository is a validation error, carried here by its message. -/
structure LlmRetryErrorData where
  message : String
  type : RetryErrorType
  details : Option String := none
  rawResponse : Option String := none
deriving DecidableEq, Repr

/-- A non-fatal thrown value:
`retryErr` = an `LlmRetryError` instance,
`schemaValidation` = a `SchemaValidationError` (createJsonSchemaLlmClient.ts
lines 10-15), `parseErr` = a `SyntaxError` thrown by `JSON.parse`,
`plainError` = any other `Error` (network fault, programmer error, the
plain `Error("LLM returned an empty string.")`, …). -/
inductive BasicError where
  | retryErr (e : LlmRetryErrorData)
  | schemaValidation (msg : String)
  | parseErr (msg : String)
  | plainError (msg : String)
deriving DecidableEq, Repr

/-- Accessor for `error.message`. -/
def BasicError.message : BasicError → String
  | .retryErr e => e.message
  | .schemaValidation m => m
  | .parseErr m => m
  | .plainError m => m

/-- Accessor for `(error as any).rawResponse` — only `LlmRetryError` carries one;
on the other classes the property is `undefined` (`none`). -/
def BasicError.rawResponseField : BasicError → Option String
  | .retryErr e => e.rawResponse
  | _ => none

/-- Model of `LlmFatalError` as constructed by `runPromptLoop`
(`new LlmFatalError(message, cause, currentMessages, responseContent)`)
and read by the repository's tests (`.cause`, `.messages`,
`.rawResponse`). -/
structure FatalError where
  message : String
  cause : Option BasicError
  messages : Conversation
  rawResponse : Option String
deriving DecidableEq, Repr

/-- Any value thrown through the retry loop's `try`/`catch`. -/
inductive Thrown where
  | basic (e : BasicError)
  | fatal (f : FatalError)
deriving DecidableEq, Repr

def Thrown.message : Thrown → String
  | .basic e => e.message
  | .fatal f => f.message

def Thrown.rawResponseField : Thrown → Option String
  | .basic e => e.rawResponseField
  | .fatal f => f.rawResponse

/-! ## Attempt errors (the causally-linked chain) -/

/-- Backend selection mode (createLlmRetryClient.ts line 127). -/
inductive Mode where
  | main
  | fallback
deriving DecidableEq, Repr

/-- The per-attempt fields of an `LlmRetryAttemptError`
(createLlmRetryClient.ts lines 33-46), without the `cause` link. -/
structure AttemptData where
  message : String
  mode : Mode
  conversation : Conversation
  attemptNumber : Nat
  error : LlmRetryErrorData
  rawResponse : Option String
deriving DecidableEq, Repr

/-- An `LlmRetryAttemptError` with its `cause` chain: `base` has
`cause: undefined`, `cons` links to the previous attempt's error. -/
inductive AttemptError where
  | base (data : AttemptData)
  | cons (data : AttemptData) (prev : AttemptError)
deriving DecidableEq, Repr

/-- Build an `LlmRetryAttemptError` from its data and the optional
previous error (`{ cause: lastError }`). -/
def mkAttemptError (d : AttemptData) : Option AttemptError → AttemptError
  | none => .base d
  | some p => .cons d p

def AttemptError.data : AttemptError → AttemptData
  | .base d => d
  | .cons d _ => d

def AttemptError.causeLink : AttemptError → Option AttemptError
  | .base _ => none
  | .cons _ p => some p

/-- The `attemptNumber` values read along the cause chain, most recent first
(traversal from the root cause of the exhausted error). -/
def AttemptError.chainNumbers : AttemptError → List Nat
  | .base d => [d.attemptNumber]
  | .cons d p => d.attemptNumber :: p.chainNumbers

/-- The `mode` values along the cause chain, most recent first. -/
def AttemptError.chainModes : AttemptError → List Mode
  | .base d => [d.mode]
  | .cons d p => d.mode :: p.chainModes

/-- Chain length (depth of the causal chain). -/
def AttemptError.chainLength : AttemptError → Nat
  | .base _ => 1
  | .cons _ p => p.chainLength + 1

def chainNumbersOpt : Option AttemptError → List Nat
  | none => []
  | some ae => ae.chainNumbers

def chainModesOpt : Option AttemptError → List Mode
  | none => []
  | some ae => ae.chainModes

def chainLengthOpt : Option AttemptError → Nat
  | none => 0
  | some ae => ae.chainLength

/-! ## `constructLlmMessages` (createLlmRetryClient.ts lines 87-111) -/

/-- Model of `constructLlmMessages`.  Attempt 0 returns the initial messages; a
retry takes the previous attempt error's conversation snapshot verbatim
and appends one user message whose content is the recoverable error's
`message`.  The two `throw`s of the source are the `.error` branches.
(The source also checks `cause instanceof LlmRetryError`; in this
embedding `AttemptData.error` has type `LlmRetryErrorData`, which makes
that check hold by construction, exactly as the loop only ever builds
attempt errors from `LlmRetryError`s.) -/
def constructLlmMessages (initialMessages : Conversation) (attemptNumber : Nat)
    (previousError : Option AttemptError) : Except String Conversation :=
  if attemptNumber = 0 then
    .ok initialMessages
  else
    match previousError with
    | none => .error "Invariant violation: previousError is missing for a retry attempt."
    | some pe =>
      .ok (pe.data.conversation ++ [userMsg pe.data.error.message])

/-! ## The retry loop (createLlmRetryClient.ts lines 113-240) -/

/-- Which of the two configured prompt functions a backend call targets:
the primary `prompt` or the configured `fallbackPrompt`. -/
inductive PromptId where
  | primary
  | fallbackId
deriving DecidableEq, Repr

/-- The `responseType` parameter of `runPromptLoop`. -/
inductive ResponseType where
  | raw
  | text
  | image
deriving DecidableEq, Repr

/-- The `dataToProcess` handed to the `validate` hook: the whole completion
(`raw`), the assistant text (`text`), or the image payload (`image` — the
URL/base64 source string; the network fetch / base64 decode of the bytes
is an external effect no claim inspects). -/
inductive LoopData where
  | completion (c : Completion)
  | text (s : String)
  | image (payload : String)
deriving DecidableEq, Repr

/-- The `info` passed to the `validate` hook (createLlmRetryClient.ts
lines 48-52, 182-186). -/
structure Info where
  mode : Mode
  conversation : Conversation
  attemptNumber : Nat
deriving DecidableEq, Repr

/-- Observable events of one logical call: a main-loop backend
invocation (tagged with the attempt number and the prompt function
used), a fixer backend invocation issued from inside the `validate`
hook during the given attempt, or a timer delay of the given length in
milliseconds.  `runPromptLoop` contains no timer, so it never emits
`.delay`; the constructor exists so that the absence of backoff is a
statement about the trace rather than about the model's shape. -/
inductive LoopEvent where
  | mainCall (attempt : Nat) (pid : PromptId) (messages : Conversation)
  | fixerCall (attempt : Nat) (pid : PromptId)
  | delay (ms : ℚ)
deriving DecidableEq, Repr

/-- Number of main-loop backend invocations in a trace. -/
def mainCallCount (evs : List LoopEvent) : Nat :=
  evs.countP fun e =>
    match e with
    | .mainCall _ _ _ => true
    | _ => false

/-- Number of timer delays in a trace. -/
def delayCount (evs : List LoopEvent) : Nat :=
  evs.countP fun e =>
    match e with
    | .delay _ => true
    | _ => false

/-- Total milliseconds of timer delay in a trace. -/
def totalDelay (evs : List LoopEvent) : ℚ :=
  (evs.map fun e =>
    match e with
    | .delay ms => ms
    | _ => 0).sum

/-- Environment of one `runPromptLoop` run.  `fallbackConfigured` is
`!!fallbackPrompt`; `oracle a pid` is the result of awaiting the chosen
prompt function on attempt `a` (a completion, or the value it throws);
`validate` is the caller-supplied hook (`promptJson` passes
`processResponse`), returning its result together with the trace of
fixer backend calls it makes.  A client created without a `validate`
hook is the instance `validate := fun d _ => (.ok d, [])` (the source's
`return dataToProcess`). -/
structure LoopEnv (β : Type) where
  fallbackConfigured : Bool
  oracle : Nat → PromptId → Except Thrown Completion
  responseType : ResponseType
  validate : LoopData → Info → Except Thrown β × List PromptId

/-- Extraction of `dataToProcess` from the completion
(createLlmRetryClient.ts lines 147-175).  Throwing branches are the
`LlmRetryError`s of the source; reading `.images` off an `undefined`
message is the JS `TypeError` of line 157-158 (a plain error → fatal). -/
def extractData (rt : ResponseType) (c : Completion) : Except BasicError LoopData :=
  match rt with
  | .raw => .ok (.completion c)
  | .text =>
    match c.message.bind (·.content) with
    | some s => .ok (.text s)
    | none =>
      .error (.retryErr ⟨"LLM returned no text content.", .CUSTOM_ERROR, none,
        some c.jsonString⟩)
  | .image =>
    match c.message with
    | none =>
      .error (.plainError "Cannot read properties of undefined (reading 'images')")
    | some m =>
      match m.images with
      | [] =>
        .error (.retryErr ⟨"LLM returned no image.", .CUSTOM_ERROR, none,
          some c.jsonString⟩)
      | entry :: _ =>
        match entry.url with
        | some u => .ok (.image u)
        | none =>
          .error (.retryErr ⟨"LLM returned invalid image URL.", .CUSTOM_ERROR, none,
            some c.jsonString⟩)

/-- Result of one iteration of the `for` loop body. -/
inductive StepResult (β : Type) where
  | ok (v : β)
  | recoverable (ae : AttemptError)
  | fatalErr (f : FatalError)
  | invariantViolation (msg : String)

/-- The `catch` block of `runPromptLoop` (lines 195-232): an
`LlmRetryError` becomes the next link of the attempt-error chain; any
other thrown value is wrapped as an `LlmFatalError` and propagates. -/
def classifyCatch (mode : Mode) (currentMessages : Conversation)
    (rawResponseForError : Option String) (lastError : Option AttemptError)
    (attempt : Nat) (e : Thrown) : StepResult β :=
  match e with
  | .basic (.retryErr r) =>
    let conversationForError :=
      currentMessages ++
        (match strTruthy r.rawResponse with
         | some s => [assistantMsg s]
         | none =>
           match rawResponseForError with
           | some s => [assistantMsg s]
           | none => [])
    .recoverable (mkAttemptError
      { message := "Attempt " ++ toString (attempt + 1) ++ " failed: " ++ r.message
        mode := mode
        conversation := conversationForError
        attemptNumber := attempt
        error := r
        rawResponse := orTruthy r.rawResponse rawResponseForError }
      lastError)
  | _ =>
    -- `error.message || 'An unexpected error occurred during LLM execution'`
    let fatalMessage :=
      if e.message = "" then "An unexpected error occurred during LLM execution"
      else e.message
    -- `error instanceof LlmFatalError ? error.cause : error`
    let cause : Option BasicError :=
      match e with
      | .fatal f => f.cause
      | .basic b => some b
    -- `rawResponseForError || (error as any).rawResponse || null`
    let responseContent := orTruthy rawResponseForError e.rawResponseField
    .fatalErr ⟨fatalMessage, cause, currentMessages, responseContent⟩

/-- One iteration of the loop body (lines 124-233): backend selection,
message reconstruction, the backend call, extraction, the `validate`
hook, and the `catch`.  Returns the step result and the events emitted. -/
def runAttempt {β : Type} (env : LoopEnv β) (initialMessages : Conversation)
    (attempt : Nat) (lastError : Option AttemptError) :
    StepResult β × List LoopEvent :=
  let useFallback := env.fallbackConfigured && decide (0 < attempt)
  let pid := if useFallback then PromptId.fallbackId else PromptId.primary
  let mode := if useFallback then Mode.fallback else Mode.main
  match constructLlmMessages initialMessages attempt lastError with
  | .error msg => (.invariantViolation msg, [])
  | .ok currentMessages =>
    match env.oracle attempt pid with
    | .error e =>
      -- the prompt function itself threw; `rawResponseForError` is still null
      (classifyCatch mode currentMessages none lastError attempt e,
       [.mainCall attempt pid currentMessages])
    | .ok completion =>
      -- `completion.choices[0]?.message?.content || null`
      let rawResponseForError := strTruthy (completion.message.bind (·.content))
      match extractData env.responseType completion with
      | .error e =>
        (classifyCatch mode currentMessages rawResponseForError lastError attempt
          (.basic e), [.mainCall attempt pid currentMessages])
      | .ok dataToProcess =>
        let finalConversation :=
          currentMessages ++
            (match completion.message with
             | some am => [⟨Role.assistant, am.content⟩]
             | none => [])
        let info : Info := ⟨mode, finalConversation, attempt⟩
        let validateRun := env.validate dataToProcess info
        let evs := LoopEvent.mainCall attempt pid currentMessages ::
          validateRun.2.map (LoopEvent.fixerCall attempt)
        match validateRun.1 with
        | .ok v => (.ok v, evs)
        | .error e =>
          (classifyCatch mode currentMessages rawResponseForError lastError attempt e,
           evs)

/-- Outcome of a whole `runPromptLoop` call. -/
inductive LoopOutcome (β : Type) where
  | success (v : β)
  | fatal (f : FatalError)
  | exhausted (msg : String) (cause : Option AttemptError)
  | invariantViolation (msg : String)

/-- A run: its outcome plus the ordered trace of observable events. -/
structure LoopRun (β : Type) where
  outcome : LoopOutcome β
  events : List LoopEvent

/-- The `for (let attempt = 0; attempt <= maxRetries; attempt++)` loop,
by recursion on the number of remaining iterations
(`remaining = maxRetries + 1 - attempt` at every call). -/
def runLoopAux {β : Type} (env : LoopEnv β) (maxRetries : Nat)
    (initialMessages : Conversation) :
    Nat → Nat → Option AttemptError → LoopRun β
  | _, 0, lastError =>
    ⟨.exhausted ("Operation failed after " ++ toString (maxRetries + 1) ++ " attempts.")
      lastError, []⟩
  | attempt, remaining + 1, lastError =>
    let step := runAttempt env initialMessages attempt lastError
    match step.1 with
    | .ok v => ⟨.success v, step.2⟩
    | .fatalErr f => ⟨.fatal f, step.2⟩
    | .invariantViolation m => ⟨.invariantViolation m, step.2⟩
    | .recoverable ae =>
      let rest := runLoopAux env maxRetries initialMessages (attempt + 1) remaining (some ae)
      ⟨rest.outcome, step.2 ++ rest.events⟩

/-- Model of `runPromptLoop` (createLlmRetryClient.ts lines 116-240).  The
caller-facing entry points `promptRetry` / `promptTextRetry` /
`promptImageRetry` (and `promptJson` via `promptTextRetry`) all call
this with their respective `responseType` after option normalization;
`maxRetries` defaults to 3 when the caller does not pass one. -/
def runPromptLoop {β : Type} (env : LoopEnv β) (maxRetries : Nat)
    (initialMessages : Conversation) : LoopRun β :=
  runLoopAux env maxRetries initialMessages 0 (maxRetries + 1) none

/-! ## JSON values

Structural JSON values as produced by `JSON.parse`.  Numbers are
modelled by `Int`: the claims under verification treat parsed values
opaquely (structural identity, control flow), never computing with
numeric content, so double-precision arithmetic plays no role. -/

inductive Json where
  | null
  | bool (b : Bool)
  | num (n : Int)
  | str (s : String)
  | arr (xs : List Json)
  | obj (fields : List (String × Json))

mutual

/-- A rendering of a JSON value, standing in for
`JSON.stringify(jsonData, null, 2)`.  The repository uses that string
only as the fixer's "broken response" payload and as the `rawResponse`
attached to schema-validation retry errors; no claim inspects its
formatting, so a compact rendering (without string escaping) is used. -/
def Json.stringify : Json → String
  | .null => "null"
  | .bool true => "true"
  | .bool false => "false"
  | .num n => toString n
  | .str s => "\"" ++ s ++ "\""
  | .arr xs => "[" ++ Json.stringifyList xs ++ "]"
  | .obj fs => "\x7b" ++ Json.stringifyFields fs ++ "\x7d"

def Json.stringifyList : List Json → String
  | [] => ""
  | [x] => x.stringify
  | x :: y :: xs => x.stringify ++ "," ++ Json.stringifyList (y :: xs)

def Json.stringifyFields : List (String × Json) → String
  | [] => ""
  | [(k, v)] => "\"" ++ k ++ "\":" ++ v.stringify
  | (k, v) :: f :: fs =>
    "\"" ++ k ++ "\":" ++ v.stringify ++ "," ++ Json.stringifyFields (f :: fs)

end

/-! ## The tolerant parse step: fence stripping
(createJsonSchemaLlmClient.ts lines 120-126)

The source strips a markdown code fence with the regular expression
`/(three backticks)(?:json)?\s*([\s\S]*?)\s*(three backticks)/` and
replaces the working string by `match[1].trim()` only under the
truthiness guard `if (match && match[1])`.  The model reproduces the
regex's effect:

* the leftmost occurrence of a triple-backtick fence starts the match
  (if the fence tail never closes, no later start can close either,
  since a later start would need a closing fence even further right —
  so a single scan suffices);
* the greedy `(?:json)?` consumes a literal `json` immediately after
  the opening fence when present;
* the lazy capture extends to the first closing fence; the first `\s*`
  is greedy and the lazy capture stops before the trailing whitespace
  run the second `\s*` absorbs, so `match[1]` is the fence body minus
  its surrounding whitespace — it is the falsy `""` exactly when the
  body is all whitespace, and then the guard fails and the string is
  left unchanged; when the guard passes, the further `.trim()` is the
  identity on the already-stripped capture, so the net replacement is
  the whitespace-trimmed body. -/

/-- Is a triple-backtick fence at the head of the character list? -/
def fenceAt : List Char → Bool
  | '`' :: '`' :: '`' :: _ => true
  | _ => false

/-- First position of a fence: `some (before, fromFence)` splits the list
at the leftmost fence occurrence; `none` if there is no fence. -/
def findFence : List Char → Option (List Char × List Char)
  | [] => none
  | c :: cs =>
    if fenceAt (c :: cs) then some ([], c :: cs)
    else
      match findFence cs with
      | some (p, s) => some (c :: p, s)
      | none => none

/-- Whether the string contains a markdown code fence at all (the regex
cannot match without one). -/
def hasCodeFence (s : String) : Bool :=
  (findFence s.toList).isSome

/-- The net effect of the `codeBlockRegex` block
(createJsonSchemaLlmClient.ts lines 122-126): when the regex matches
*and* the capture is truthy (`if (match && match[1])`), the
whitespace-stripped capture; otherwise the string unchanged.  The
capture is falsy exactly when the fence body is all whitespace, i.e.
when its trim is empty — then the string stays as it is (and typically
fails the subsequent `JSON.parse`). -/
def stripCodeFence (s : String) : String :=
  match findFence s.toList with
  | none => s
  | some (_, fromFence) =>
    let afterOpen := fromFence.drop 3
    let afterJson :=
      if "json".toList.isPrefixOf afterOpen then afterOpen.drop 4 else afterOpen
    match findFence afterJson with
    | none => s   -- no closing fence: the regex does not match
    | some (body, _) =>
      if jsTrim (String.mk body) = "" then s   -- falsy `match[1]`: leave unstripped
      else jsTrim (String.mk body)

/-! ## The JSON-schema client internals
(createJsonSchemaLlmClient.ts lines 51-337) -/

/-- Environment of the JSON-schema client helpers.  `jsParse` models the
platform primitive `JSON.parse` (a value, or the message of the
`SyntaxError` it throws — `JSON.parse` throws nothing else);
`disableJsonFixer` is the client-creation flag; `fixerBackend` is the
result of awaiting the primary prompt inside `_tryToFixJson`
(`.error` = the call threw; `.ok c` = `c` is
`completion.choices[0]?.message?.content`). -/
structure JsonEnv where
  jsParse : String → Except String Json
  disableJsonFixer : Bool
  fixerBackend : Except BasicError (Option String)

/-- The fix-up prompt template (createJsonSchemaLlmClient.ts
lines 62-79). -/
def fixupPromptText (schemaJsonString errorDetails brokenResponse : String) : String :=
  "\nAn attempt to generate a JSON object resulted in the following output, which is either not valid JSON or does not conform to the required schema.\n\nYour task is to act as a JSON fixer. Analyze the provided \"BROKEN RESPONSE\" and correct it to match the \"REQUIRED JSON SCHEMA\".\n\n- If the broken response contains all the necessary information to create a valid JSON object according to the schema, please provide the corrected, valid JSON object.\n- If the broken response is missing essential information, or is too garbled to be fixed, please respond with the exact string: \"CANNOT_FIX\".\n- Your response must be ONLY the corrected JSON object or the string \"CANNOT_FIX\". Do not include any other text, explanations, or markdown formatting.\n\nREQUIRED JSON SCHEMA:\n"
    ++ schemaJsonString ++ "\n\nERROR DETAILS:\n" ++ errorDetails
    ++ "\n\nBROKEN RESPONSE:\n" ++ brokenResponse ++ "\n"

/-- The verdict `_tryToFixJson` extracts from its backend call's
content: `none` for the sentinel `CANNOT_FIX`, a falsy (empty) content,
or a null content
(`if (fixedResponse && fixedResponse.trim() === 'CANNOT_FIX') return null;
return fixedResponse || null;`, lines 105-111). -/
def fixerVerdictOf (env : JsonEnv) : Except BasicError (Option String) :=
  match env.fixerBackend with
  | .error e => .error e
  | .ok content =>
    .ok (match content with
      | none => none
      | some s =>
        if s = "" then none
        else if jsTrim s = "CANNOT_FIX" then none
        else some s)

/-- Model of `_tryToFixJson` (createJsonSchemaLlmClient.ts lines 56-112): builds
the fix-up conversation and awaits **the primary `prompt` captured at
client creation** (line 99 calls the identifier `prompt` destructured at
line 52; the fallback prompt is not in scope there).  Returns the fixer
verdict together with the trace of backend calls it performed. -/
def tryToFixJson (env : JsonEnv)
    (brokenResponse schemaJsonString errorDetails : String) :
    Except BasicError (Option String) × List PromptId :=
  let _messages : Conversation :=
    [systemMsg "You are an expert at fixing malformed JSON data to match a specific schema.",
     userMsg (fixupPromptText schemaJsonString errorDetails brokenResponse)]
  (fixerVerdictOf env, [PromptId.primary])

/-- Model of `_parseOrFixJson` (createJsonSchemaLlmClient.ts lines 115-158):
trim, fence-strip, reject the empty string with a **plain**
`Error("LLM returned an empty string.")`, then `JSON.parse`; on a
`SyntaxError`, unless fixing is disabled, make one fixer call and parse
its output, rethrowing the original `SyntaxError` on any secondary
failure.  Returns the result and the trace of fixer backend calls. -/
def parseOrFixJson (env : JsonEnv) (llmResponseString schemaJsonString : String) :
    Except BasicError Json × List PromptId :=
  let jsonDataToParse := stripCodeFence (jsTrim llmResponseString)
  if jsonDataToParse = "" then
    (.error (.plainError "LLM returned an empty string."), [])
  else
    match env.jsParse jsonDataToParse with
    | .ok v => (.ok v, [])
    | .error parseMsg =>
      -- `JSON.parse` only throws `SyntaxError`, so the
      -- `!(parseError instanceof SyntaxError)` rethrow branch is
      -- unreachable from it; the parse failure is a `SyntaxError` here.
      if env.disableJsonFixer then
        (.error (.parseErr parseMsg), [])
      else
        let errorDetails := "JSON Parse Error: " ++ parseMsg
        match tryToFixJson env jsonDataToParse schemaJsonString errorDetails with
        | (.error e, tr) => (.error e, tr)          -- the fixer's own call threw
        | (.ok none, tr) => (.error (.parseErr parseMsg), tr)
        | (.ok (some fixedResponse), tr) =>
          match env.jsParse fixedResponse with
          | .ok v => (.ok v, tr)
          | .error _ => (.error (.parseErr parseMsg), tr)

/-- The `beforeValidation` hook (when present) followed by the
validator — the sequence `_validateOrFix` runs both on the original
data (lines 167-170) and on the fixer's re-parsed output
(lines 188-191). -/
def applyValidation (beforeValidation : Option (Json → Except BasicError Json))
    (validator : Json → Except BasicError Json) (jsonData : Json) :
    Except BasicError Json :=
  match beforeValidation with
  | some bv => (bv jsonData).bind validator
  | none => validator jsonData

/-- Model of `_validateOrFix` (createJsonSchemaLlmClient.ts lines 160-199):
`beforeValidation` then the validator; only a `SchemaValidationError`
triggers the fixer path, any other thrown value bubbles up; on the fixer
path, parse + `beforeValidation` + re-validate the fixer's output once,
rethrowing the **original** validation error on any failure. -/
def validateOrFix (env : JsonEnv)
    (beforeValidation : Option (Json → Except BasicError Json))
    (validator : Json → Except BasicError Json)
    (schemaJsonString : String) (jsonData : Json) :
    Except BasicError Json × List PromptId :=
  let firstTry : Except BasicError Json :=
    applyValidation beforeValidation validator jsonData
  match firstTry with
  | .ok v => (.ok v, [])
  | .error validationError =>
    match validationError with
    | .schemaValidation _ =>
      if env.disableJsonFixer then
        (.error validationError, [])
      else
        let errorDetails := "Schema Validation Error: " ++ validationError.message
        match tryToFixJson env jsonData.stringify schemaJsonString errorDetails with
        | (.error e, tr) => (.error e, tr)          -- the fixer's own call threw
        | (.ok none, tr) => (.error validationError, tr)
        | (.ok (some fixedResponse), tr) =>
          let secondTry : Except BasicError Json :=
            match env.jsParse fixedResponse with
            | .error m => .error (.parseErr m)
            | .ok fixedJsonData =>
              applyValidation beforeValidation validator fixedJsonData
          match secondTry with
          | .ok v => (.ok v, tr)
          | .error _ => (.error validationError, tr)
    | _ => (.error validationError, [])

/-- The feedback text built for a JSON parse failure
(createJsonSchemaLlmClient.ts lines 274-277). -/
def jsonParseFeedback (parseMsg : String) : String :=
  "Your previous response resulted in an error.\nError Type: JSON_PARSE_ERROR\nError Details: "
    ++ parseMsg ++ "\nThe response provided was not valid JSON. Please correct it."

/-- The feedback text built for a schema-validation failure
(createJsonSchemaLlmClient.ts lines 297-300). -/
def schemaValidationFeedback (errorDetails : String) : String :=
  "Your previous response resulted in an error.\nError Type: SCHEMA_VALIDATION_ERROR\nError Details: "
    ++ errorDetails ++ "\nThe response was valid JSON but did not conform to the required schema. Please review the errors and the schema to provide a corrected response."

/-- Model of `processResponse` (createJsonSchemaLlmClient.ts lines 267-311), the
`validate` hook `promptJson` installs on the retry loop: parse-or-fix,
wrapping only `SyntaxError`s as `JSON_PARSE_ERROR` retry errors; then
validate-or-fix, wrapping only `SchemaValidationError`s as
`CUSTOM_ERROR` retry errors with the serialized data as `rawResponse`;
everything else is rethrown unchanged. -/
def processResponse (env : JsonEnv)
    (beforeValidation : Option (Json → Except BasicError Json))
    (validator : Json → Except BasicError Json)
    (schemaJsonString : String) (llmResponseString : String) :
    Except Thrown Json × List PromptId :=
  match parseOrFixJson env llmResponseString schemaJsonString with
  | (.error (.parseErr parseMsg), tr) =>
    (.error (.basic (.retryErr
      ⟨jsonParseFeedback parseMsg, .JSON_PARSE_ERROR, none, some llmResponseString⟩)), tr)
  | (.error e, tr) => (.error (.basic e), tr)
  | (.ok jsonData, tr) =>
    match validateOrFix env beforeValidation validator schemaJsonString jsonData with
    | (.ok v, tr2) => (.ok v, tr ++ tr2)
    | (.error (.schemaValidation errorDetails), tr2) =>
      (.error (.basic (.retryErr
        ⟨schemaValidationFeedback errorDetails, .CUSTOM_ERROR, some errorDetails,
         some jsonData.stringify⟩)), tr ++ tr2)
    | (.error e, tr2) => (.error (.basic e), tr ++ tr2)

/-- The `validate` hook as handed to the retry loop by `promptJson`
(which routes through `promptTextRetry`, so the hook always receives the
assistant text).  The non-text branch is unreachable in that
composition. -/
def processResponseHook (env : JsonEnv)
    (beforeValidation : Option (Json → Except BasicError Json))
    (validator : Json → Except BasicError Json)
    (schemaJsonString : String) :
    LoopData → Info → Except Thrown Json × List PromptId :=
  fun d _ =>
    match d with
    | .text s => processResponse env beforeValidation validator schemaJsonString s
    | _ => (.error (.basic (.plainError "processResponse expects text data")), [])

/-! ## `executeWithRetry` (src/retryUtils.ts lines 25-84)

The transport-level retry helper used by `createLlmClient`'s low-level
`prompt` around the raw API call.  This — and only this — function of
the repository implements the exponential backoff with jitter
(lines 37-45).  `Math.random()` is the oracle `rand` (one fresh sample
per delay, indexed by the attempt number of the retry it precedes);
`JSON.stringify` of the feedback object is the parameter
`stringifyFeedback` (`none` models `undefined`); the
`OPERATION_EXCEPTION` feedback object literal is `mkOpFeedback`.
`setTimeout` suspensions are recorded as `.delay` events. -/

/-- Model of `RetryValidationResult` (retryUtils.ts lines 6-11). -/
structure RetryValidationResult (V F : Type) where
  isValid : Bool
  data : Option V := none
  feedbackForNextAttempt : Option F := none
  isCriticalFailure : Bool := false

/-- Observable events of one `executeWithRetry` run. -/
inductive RetryEvent where
  | delay (ms : ℚ)
  | opCall (attempt : Nat)
deriving DecidableEq, Repr

/-- The backoff computation of retryUtils.ts lines 39-42:
`backoffTime = 1000 * 2^(attemptNumber-1)`,
`jitter = backoffTime * (Math.random() * 0.2)`,
`totalDelay = backoffTime + jitter`. -/
def backoffDelay (randVal : ℚ) (attemptNumber : Nat) : ℚ :=
  let baseDelay : ℚ := 1000
  let backoffTime : ℚ := baseDelay * 2 ^ (attemptNumber - 1)
  let jitter : ℚ := backoffTime * (randVal * (2 / 10))
  backoffTime + jitter

/-- The `for (let attemptNumber = 0; attemptNumber <= maxRetries; ...)`
loop of `executeWithRetry`, by recursion on the remaining iterations. -/
def executeWithRetryAux {D V F : Type}
    (operation : Nat → Option F → Except String D)
    (validateAndProcess : D → Nat → RetryValidationResult V F)
    (maxRetries : Nat) (rand : Nat → ℚ)
    (mkOpFeedback : String → F)
    (stringifyFeedback : Option F → Option String) :
    Nat → Nat → Option F → Except String V × List RetryEvent
  | _, 0, _ =>
    (.error "Exited retry loop unexpectedly. This indicates an issue with the retry logic itself.",
     [])
  | attemptNumber, remaining + 1, currentFeedback =>
    let delayEvents : List RetryEvent :=
      if 0 < attemptNumber then
        [.delay (backoffDelay (rand attemptNumber) attemptNumber)]
      else []
    match operation attemptNumber currentFeedback with
    | .error opError =>
      if maxRetries ≤ attemptNumber then
        (.error ("Operation failed on final attempt " ++ toString (attemptNumber + 1)
          ++ ". See cause for details."),
         delayEvents ++ [.opCall attemptNumber])
      else
        let next := executeWithRetryAux operation validateAndProcess maxRetries rand
          mkOpFeedback stringifyFeedback (attemptNumber + 1) remaining
          (some (mkOpFeedback opError))
        (next.1, delayEvents ++ [.opCall attemptNumber] ++ next.2)
    | .ok rawResult =>
      let validationOutcome := validateAndProcess rawResult attemptNumber
      match validationOutcome.isValid, validationOutcome.data with
      | true, some d => (.ok d, delayEvents ++ [.opCall attemptNumber])
      | _, _ =>
        let nextFeedback := validationOutcome.feedbackForNextAttempt
        if validationOutcome.isCriticalFailure then
          (.error ("Critical failure encountered on attempt " ++ toString (attemptNumber + 1)
            ++ ". Reason: "
            ++ ((strTruthy (stringifyFeedback nextFeedback)).getD "Unknown critical failure")),
           delayEvents ++ [.opCall attemptNumber])
        else if maxRetries ≤ attemptNumber then
          (.error ("All " ++ toString (maxRetries + 1)
            ++ " attempts failed. Last failure reason: "
            ++ ((stringifyFeedback nextFeedback).getD "undefined")),
           delayEvents ++ [.opCall attemptNumber])
        else
          let next := executeWithRetryAux operation validateAndProcess maxRetries rand
            mkOpFeedback stringifyFeedback (attemptNumber + 1) remaining nextFeedback
          (next.1, delayEvents ++ [.opCall attemptNumber] ++ next.2)

/-- Model of `executeWithRetry` (retryUtils.ts lines 25-84). -/
def executeWithRetry {D V F : Type}
    (operation : Nat → Option F → Except String D)
    (validateAndProcess : D → Nat → RetryValidationResult V F)
    (maxRetries : Nat) (rand : Nat → ℚ)
    (mkOpFeedback : String → F)
    (stringifyFeedback : Option F → Option String)
    (initialFeedbackForOperation : Option F) :
    Except String V × List RetryEvent :=
  executeWithRetryAux operation validateAndProcess maxRetries rand mkOpFeedback
    stringifyFeedback 0 (maxRetries + 1) initialFeedbackForOperation

/-! ## Helper lemmas about the retry loop -/

/-- The prompt function / mode a given attempt number uses:
`!!fallbackPrompt && attempt > 0` selects the fallback. -/
def expectedPid (fallbackConfigured : Bool) (attempt : Nat) : PromptId :=
  if fallbackConfigured && decide (0 < attempt) then PromptId.fallbackId
  else PromptId.primary

def expectedMode (fallbackConfigured : Bool) (attempt : Nat) : Mode :=
  if fallbackConfigured && decide (0 < attempt) then Mode.fallback else Mode.main

/-! ## Outcome accessors and concrete scenario instances -/

def LoopOutcome.exhaustedCause {β : Type} : LoopOutcome β → Option AttemptError
  | .exhausted _ c => c
  | _ => none

def LoopOutcome.isExhausted {β : Type} : LoopOutcome β → Bool
  | .exhausted _ _ => true
  | _ => false

def LoopOutcome.fatalPart {β : Type} : LoopOutcome β → Option FatalError
  | .fatal f => some f
  | _ => none

def LoopOutcome.successValue {β : Type} : LoopOutcome β → Option β
  | .success v => some v
  | _ => none

/-- A completion whose first choice carries the given assistant text. -/
def completionOf (s : String) : Completion := ⟨some ⟨some s, []⟩⟩

/-- A table-driven stand-in for `JSON.parse` used in the concrete
scenarios: it parses the scenario's fixed strings and rejects everything
else with a `SyntaxError` message, as `JSON.parse` does. -/
def jsParseSample : String → Except String Json := fun s =>
  if s = "\x7b\"age\": \"twenty\"\x7d" then .ok (.obj [("age", .str "twenty")])
  else if s = "\x7b\"age\":\"twenty\"\x7d" then .ok (.obj [("age", .str "twenty")])
  else if s = "\x7b\"age\": 20\x7d" then .ok (.obj [("age", .num 20)])
  else if s = "\x7b\"age\":20\x7d" then .ok (.obj [("age", .num 20)])
  else .error "Unexpected token"

/-- The behaviour of the default AJV validator compiled from the schema
`{"type":"object","properties":{"age":{"type":"number"}},"required":["age"]}`:
accepts an object whose `age` is a number, rejects everything else with
a `SchemaValidationError`. -/
def ageValidator : Json → Except BasicError Json := fun d =>
  match d with
  | .obj [("age", .num n)] => .ok (.obj [("age", .num n)])
  | _ => .error (.schemaValidation "AJV Validation Error: /age must be number")

/-- A custom validator that throws a plain (non-schema-validation)
error, e.g. a failing downstream lookup. -/
def dbValidator : Json → Except BasicError Json := fun _ =>
  .error (.plainError "Database Error")

/-- JSON client environment whose fixer call answers `CANNOT_FIX`. -/
def jsonEnvCannotFix : JsonEnv := ⟨jsParseSample, false, .ok (some "CANNOT_FIX")⟩

/-- JSON client environment with the fixer disabled
(`disableJsonFixer: true`). -/
def jsonEnvDisabled : JsonEnv := ⟨jsParseSample, true, .ok (some "CANNOT_FIX")⟩

/-- Initial conversation with a system message present, as
`_getJsonPromptConfig` produces for `promptJson` (schema instructions
merged into the system message). -/
def scenInit : Conversation := [systemMsg "sys", userMsg "test"]

/-- Scenario: every attempt answers `{"age": "twenty"}`, which parses
but fails schema validation; the fixer answers `CANNOT_FIX`. -/
def scenSchemaFailEnv : LoopEnv Json :=
  { fallbackConfigured := false
    oracle := fun _ _ => .ok (completionOf "\x7b\"age\": \"twenty\"\x7d")
    responseType := .text
    validate := processResponseHook jsonEnvCannotFix none ageValidator "schema" }

/-- Scenario: every attempt answers `{"age": "twenty"}` with the fixer
disabled (the repository's own exhaustion test setup). -/
def scenSchemaFailNoFixerEnv : LoopEnv Json :=
  { fallbackConfigured := false
    oracle := fun _ _ => .ok (completionOf "\x7b\"age\": \"twenty\"\x7d")
    responseType := .text
    validate := processResponseHook jsonEnvDisabled none ageValidator "schema" }

/-- Scenario: the backend answers the empty string on every attempt. -/
def scenEmptyEnv : LoopEnv Json :=
  { fallbackConfigured := false
    oracle := fun _ _ => .ok (completionOf "")
    responseType := .text
    validate := processResponseHook jsonEnvCannotFix none ageValidator "schema" }

/-- Scenario: valid JSON, but the custom validator throws a plain
`Error("Database Error")`. -/
def scenDbErrorEnv : LoopEnv Json :=
  { fallbackConfigured := false
    oracle := fun _ _ => .ok (completionOf "\x7b\"age\": 20\x7d")
    responseType := .text
    validate := processResponseHook jsonEnvCannotFix none dbValidator "schema" }

/-- Scenario with a fallback configured: attempt 0's completion has
null content (recoverable "no text content"), attempt 1 succeeds;
`validate` records the `info` it is passed. -/
def scenFallbackEnv : LoopEnv Info :=
  { fallbackConfigured := true
    oracle := fun a _ =>
      if a = 0 then .ok ⟨some ⟨none, []⟩⟩ else .ok (completionOf "hi")
    responseType := .text
    validate := fun _ i => (.ok i, []) }

/-- Scenario with a fallback configured and unparsable output on every
attempt, so the fixer fires during the fallback-mode attempt too. -/
def scenFallbackFixerEnv : LoopEnv Json :=
  { fallbackConfigured := true
    oracle := fun _ _ => .ok (completionOf "oops")
    responseType := .text
    validate := processResponseHook jsonEnvCannotFix none ageValidator "schema" }

/-- The conversation the schema-failure scenario sends to the backend
on attempt 1: system, user, assistant (the failed JSON, serialized),
user (the schema-validation feedback). -/
def scenRetryConv : Conversation :=
  [systemMsg "sys", userMsg "test",
   assistantMsg "\x7b\"age\":\"twenty\"\x7d",
   userMsg (schemaValidationFeedback "AJV Validation Error: /age must be number")]

/-- A sample previous attempt error for exercising
`constructLlmMessages` on a retry. -/
def sampleAttemptError : AttemptError :=
  .base ⟨"Attempt 1 failed: fix it", Mode.main, [userMsg "q", assistantMsg "bad"], 0,
    ⟨"fix it", RetryErrorType.CUSTOM_ERROR, none, some "bad"⟩, some "bad"⟩

/-- The conversation the no-text-content fallback scenario sends on
attempt 1 (the serialized completion stands in as the failed reply). -/
def scenNoTextRetryConv : Conversation :=
  [systemMsg "sys", userMsg "test",
   assistantMsg "\x7b\"choices\":[\x7b\"message\":\x7b\"content\":null\x7d\x7d]\x7d",
   userMsg "LLM returned no text content."]

/-- The conversation the fallback-plus-fixer scenario sends on
attempt 1. -/
def scenFallbackFixerRetryConv : Conversation :=
  [systemMsg "sys", userMsg "test", assistantMsg "oops",
   userMsg (jsonParseFeedback "Unexpected token")]

lemma mainCallCount_append (a b : List LoopEvent) :
    mainCallCount (a ++ b) = mainCallCount a + mainCallCount b :=
  List.countP_append _ _ _

lemma mainCallCount_map_fixer (a : Nat) (l : List PromptId) :
    mainCallCount (l.map (LoopEvent.fixerCall a)) = 0 := by
  simp [mainCallCount, List.countP_map, Function.comp]

lemma delayCount_append (a b : List LoopEvent) :
    delayCount (a ++ b) = delayCount a + delayCount b :=
  List.countP_append _ _ _

lemma delayCount_map_fixer (a : Nat) (l : List PromptId) :
    delayCount (l.map (LoopEvent.fixerCall a)) = 0 := by
  simp [delayCount, List.countP_map, Function.comp]

/-- Applying `classifyCatch` to an `LlmRetryError` yields the recoverable step,
whose attempt error links to `lastError`, is numbered with the current
attempt, and carries the current mode. -/
lemma classifyCatch_retryErr {β} (mode : Mode) (cm : Conversation)
    (raw : Option String) (le : Option AttemptError) (a : Nat)
    (r : LlmRetryErrorData) :
    (classifyCatch mode cm raw le a (.basic (.retryErr r)) : StepResult β) =
      .recoverable (mkAttemptError
        { message := "Attempt " ++ toString (a + 1) ++ " failed: " ++ r.message
          mode := mode
          conversation := cm ++
            (match strTruthy r.rawResponse with
             | some s => [assistantMsg s]
             | none =>
               match raw with
               | some s => [assistantMsg s]
               | none => [])
          attemptNumber := a
          error := r
          rawResponse := orTruthy r.rawResponse raw }
        le) := rfl

/-- If `classifyCatch` yields a recoverable step, the thrown value was
an `LlmRetryError` and the attempt error's shape is determined. -/
lemma classifyCatch_recoverable {β} {mode : Mode} {cm : Conversation}
    {raw : Option String} {le : Option AttemptError} {a : Nat} {e : Thrown}
    {ae : AttemptError}
    (h : (classifyCatch mode cm raw le a e : StepResult β) = .recoverable ae) :
    ∃ d, ae = mkAttemptError d le ∧ d.attemptNumber = a ∧ d.mode = mode := by
  cases e with
  | basic b =>
    cases b with
    | retryErr r =>
      rw [classifyCatch_retryErr] at h
      injection h with h
      exact ⟨_, h.symm, rfl, rfl⟩
    | schemaValidation m => simp [classifyCatch] at h
    | parseErr m => simp [classifyCatch] at h
    | plainError m => simp [classifyCatch] at h
  | fatal f => simp [classifyCatch] at h

/-- If `classifyCatch` yields a fatal step, the thrown value was not an
`LlmRetryError`, and the fatal error carries the current conversation. -/
lemma classifyCatch_fatal {β} {mode : Mode} {cm : Conversation}
    {raw : Option String} {le : Option AttemptError} {a : Nat} {e : Thrown}
    {f : FatalError}
    (h : (classifyCatch mode cm raw le a e : StepResult β) = .fatalErr f) :
    f.messages = cm ∧ f.rawResponse = orTruthy raw e.rawResponseField := by
  cases e with
  | basic b =>
    cases b with
    | retryErr r => rw [classifyCatch_retryErr] at h; cases h
    | schemaValidation m =>
      simp only [classifyCatch] at h
      cases h; exact ⟨rfl, rfl⟩
    | parseErr m =>
      simp only [classifyCatch] at h
      cases h; exact ⟨rfl, rfl⟩
    | plainError m =>
      simp only [classifyCatch] at h
      cases h; exact ⟨rfl, rfl⟩
  | fatal g =>
    simp only [classifyCatch] at h
    cases h; exact ⟨rfl, rfl⟩

/-- A recoverable step of `runAttempt` always links the new attempt
error to `lastError`, numbers it with the current attempt, and tags it
with the mode the fallback policy dictates. -/
lemma runAttempt_recoverable {β} {env : LoopEnv β} {init : Conversation} {a : Nat}
    {le : Option AttemptError} {ae : AttemptError}
    (h : (runAttempt env init a le).1 = .recoverable ae) :
    ∃ d, ae = mkAttemptError d le ∧ d.attemptNumber = a ∧
      d.mode = expectedMode env.fallbackConfigured a := by
  unfold expectedMode
  simp only [runAttempt] at h
  split at h
  · cases h
  · split at h
    · dsimp only at h
      exact classifyCatch_recoverable h
    · split at h
      · dsimp only at h
        exact classifyCatch_recoverable h
      · split at h
        · cases h
        · dsimp only at h
          exact classifyCatch_recoverable h

/-- The events of one attempt: nothing (invariant violation), or the
attempt's single main-loop backend call (with the fallback-policy
prompt function) followed by the fixer calls the `validate` hook
recorded. -/
lemma runAttempt_events_shape {β} (env : LoopEnv β) (init : Conversation)
    (a : Nat) (le : Option AttemptError) :
    (runAttempt env init a le).2 = [] ∨
    (∃ (cm : Conversation), (runAttempt env init a le).2 =
      [LoopEvent.mainCall a (expectedPid env.fallbackConfigured a) cm]) ∨
    (∃ (cm : Conversation) (d : LoopData) (i : Info), (runAttempt env init a le).2 =
      LoopEvent.mainCall a (expectedPid env.fallbackConfigured a) cm ::
        List.map (LoopEvent.fixerCall a) (env.validate d i).2) := by
  unfold expectedPid
  simp only [runAttempt]
  split
  · exact Or.inl rfl
  · split
    · dsimp only
      exact Or.inr (Or.inl ⟨_, rfl⟩)
    · split
      · dsimp only
        exact Or.inr (Or.inl ⟨_, rfl⟩)
      · split
        · dsimp only
          exact Or.inr (Or.inr ⟨_, _, _, rfl⟩)
        · dsimp only
          exact Or.inr (Or.inr ⟨_, _, _, rfl⟩)

/-- One attempt makes at most one main-loop backend call. -/
lemma runAttempt_mainCalls_le_one {β} (env : LoopEnv β) (init : Conversation)
    (a : Nat) (le : Option AttemptError) :
    mainCallCount (runAttempt env init a le).2 ≤ 1 := by
  rcases runAttempt_events_shape env init a le with h | ⟨cm, h⟩ | ⟨cm, d, i, h⟩ <;>
    rw [h] <;>
    simp [mainCallCount, List.countP_cons, List.countP_map, Function.comp]

/-- One attempt performs no timer delay: `runPromptLoop` contains no
`setTimeout`/sleep of any kind. -/
lemma runAttempt_no_delay {β} (env : LoopEnv β) (init : Conversation)
    (a : Nat) (le : Option AttemptError) :
    delayCount (runAttempt env init a le).2 = 0 := by
  rcases runAttempt_events_shape env init a le with h | ⟨cm, h⟩ | ⟨cm, d, i, h⟩ <;>
    rw [h] <;>
    simp [delayCount, List.countP_cons, List.countP_map, Function.comp]

/-- Whole-loop bound on main-loop backend calls: at most one per
remaining iteration. -/
lemma runLoopAux_mainCalls_le {β} (env : LoopEnv β) (mr : Nat) (init : Conversation) :
    ∀ (r a : Nat) (le : Option AttemptError),
      mainCallCount (runLoopAux env mr init a r le).events ≤ r := by
  intro r
  induction r with
  | zero => intro a le; simp [runLoopAux, mainCallCount]
  | succ n ih =>
    intro a le
    simp only [runLoopAux]
    split
    · dsimp only
      exact le_trans (runAttempt_mainCalls_le_one env init a le)
        (Nat.le_add_left 1 n)
    · dsimp only
      exact le_trans (runAttempt_mainCalls_le_one env init a le)
        (Nat.le_add_left 1 n)
    · dsimp only
      exact le_trans (runAttempt_mainCalls_le_one env init a le)
        (Nat.le_add_left 1 n)
    · rename_i ae heq
      dsimp only
      rw [mainCallCount_append]
      have h1 := runAttempt_mainCalls_le_one env init a le
      have h2 := ih (a + 1) (some ae)
      omega

/-- The whole loop never delays. -/
lemma runLoopAux_no_delay {β} (env : LoopEnv β) (mr : Nat) (init : Conversation) :
    ∀ (r a : Nat) (le : Option AttemptError),
      delayCount (runLoopAux env mr init a r le).events = 0 := by
  intro r
  induction r with
  | zero => intro a le; simp [runLoopAux, delayCount]
  | succ n ih =>
    intro a le
    simp only [runLoopAux]
    split
    · exact runAttempt_no_delay env init a le
    · exact runAttempt_no_delay env init a le
    · exact runAttempt_no_delay env init a le
    · dsimp only
      rw [delayCount_append, runAttempt_no_delay env init a le, ih (a + 1)]

/-- Every main-loop backend call in an event trace targets the prompt
function the fallback policy dictates, and every fixer call in it was
recorded by the `validate` hook. -/
lemma runLoopAux_event_mem {β} (env : LoopEnv β) (mr : Nat) (init : Conversation) :
    ∀ (r a : Nat) (le : Option AttemptError) (e : LoopEvent),
      e ∈ (runLoopAux env mr init a r le).events →
      (∃ a' cm, e = .mainCall a' (expectedPid env.fallbackConfigured a') cm) ∨
      (∃ a' d i pid, pid ∈ (env.validate d i).2 ∧ e = .fixerCall a' pid) := by
  intro r
  induction r with
  | zero => intro a le e h; simp [runLoopAux] at h
  | succ n ih =>
    intro a le e h
    simp only [runLoopAux] at h
    have hstep : e ∈ (runAttempt env init a le).2 →
        (∃ a' cm, e = LoopEvent.mainCall a' (expectedPid env.fallbackConfigured a') cm) ∨
        (∃ a' d i pid, pid ∈ (env.validate d i).2 ∧ e = LoopEvent.fixerCall a' pid) := by
      intro hm
      rcases runAttempt_events_shape env init a le with hs | ⟨cm, hs⟩ | ⟨cm, d, i, hs⟩ <;>
        rw [hs] at hm
      · simp at hm
      · simp only [List.mem_singleton] at hm
        exact Or.inl ⟨a, cm, hm⟩
      · simp only [List.mem_cons] at hm
        rcases hm with hm | hm
        · exact Or.inl ⟨a, cm, hm⟩
        · rcases List.mem_map.mp hm with ⟨pid, hpid, rfl⟩
          exact Or.inr ⟨a, d, i, pid, hpid, rfl⟩
    split at h
    · exact hstep h
    · exact hstep h
    · exact hstep h
    · dsimp only at h
      rcases List.mem_append.mp h with h | h
      · exact hstep h
      · exact ih (a + 1) _ e h

lemma chainNumbers_mk (d : AttemptData) (le : Option AttemptError) :
    (mkAttemptError d le).chainNumbers = d.attemptNumber :: chainNumbersOpt le := by
  cases le <;> rfl

lemma chainModes_mk (d : AttemptData) (le : Option AttemptError) :
    (mkAttemptError d le).chainModes = d.mode :: chainModesOpt le := by
  cases le <;> rfl

lemma chainLength_mk (d : AttemptData) (le : Option AttemptError) :
    (mkAttemptError d le).chainLength = chainLengthOpt le + 1 := by
  cases le <;> rfl

/-- A recoverable step always records exactly the one main-loop backend
call of its attempt. -/
lemma runAttempt_recoverable_one_call {β} {env : LoopEnv β} {init : Conversation}
    {a : Nat} {le : Option AttemptError} {ae : AttemptError}
    (h : (runAttempt env init a le).1 = .recoverable ae) :
    mainCallCount (runAttempt env init a le).2 = 1 := by
  revert h
  simp only [runAttempt]
  split
  · intro h; cases h
  · split
    · intro _
      dsimp only
      simp [mainCallCount, List.countP_cons]
    · split
      · intro _
        dsimp only
        simp [mainCallCount, List.countP_cons]
      · split
        · intro h; cases h
        · intro _
          dsimp only
          simp [mainCallCount, List.countP_cons, List.countP_map, Function.comp]

/-- The exhaustion invariant: if the loop runs out of budget, the error
message is the exhaustion message, the cause chain records exactly the
attempt numbers `maxRetries, …, 1, 0` (most recent first) with the
fallback-policy modes, and the loop made exactly one main-loop backend
call per recoverable failure. -/
lemma runLoopAux_exhausted {β} (env : LoopEnv β) (mr : Nat) (init : Conversation) :
    ∀ (r a : Nat) (le : Option AttemptError) (m : String) (c : Option AttemptError),
      chainNumbersOpt le = (List.range a).reverse →
      chainModesOpt le = (List.range a).reverse.map (expectedMode env.fallbackConfigured) →
      (runLoopAux env mr init a r le).outcome = .exhausted m c →
      m = "Operation failed after " ++ toString (mr + 1) ++ " attempts." ∧
      chainNumbersOpt c = (List.range (a + r)).reverse ∧
      chainModesOpt c = (List.range (a + r)).reverse.map (expectedMode env.fallbackConfigured) ∧
      mainCallCount (runLoopAux env mr init a r le).events = r := by
  intro r
  induction r with
  | zero =>
    intro a le m c h1 h2 h3
    simp only [runLoopAux] at h3 ⊢
    cases h3
    exact ⟨rfl, by simpa using h1, by simpa using h2, by simp [mainCallCount]⟩
  | succ n ih =>
    intro a le m c h1 h2 h3
    simp only [runLoopAux] at h3 ⊢
    revert h3
    split
    · intro h3; cases h3
    · intro h3; cases h3
    · intro h3; cases h3
    · rename_i ae heq
      intro h3
      dsimp only at h3 ⊢
      rcases runAttempt_recoverable heq with ⟨d, rfl, hnum, hmode⟩
      have hch1 : chainNumbersOpt (some (mkAttemptError d le)) = (List.range (a + 1)).reverse := by
        show (mkAttemptError d le).chainNumbers = _
        rw [chainNumbers_mk, hnum, h1, List.range_succ]
        simp
      have hch2 : chainModesOpt (some (mkAttemptError d le)) =
          (List.range (a + 1)).reverse.map (expectedMode env.fallbackConfigured) := by
        show (mkAttemptError d le).chainModes = _
        rw [chainModes_mk, hmode, h2, List.range_succ]
        simp
      rcases ih (a + 1) (some (mkAttemptError d le)) m c hch1 hch2 h3 with
        ⟨hm, hc1, hc2, hcount⟩
      refine ⟨hm, ?_, ?_, ?_⟩
      · rw [hc1]; ring_nf
      · rw [hc2]; ring_nf
      · rw [mainCallCount_append, hcount, runAttempt_recoverable_one_call heq]
        omega

/-- A fatal step terminates the loop immediately: the outcome is that
fatal error and no further events occur, regardless of the remaining
retry budget. -/
lemma runLoopAux_fatal {β} (env : LoopEnv β) (mr : Nat) (init : Conversation)
    {a r : Nat} {le : Option AttemptError} {f : FatalError}
    (h : (runAttempt env init a le).1 = .fatalErr f) :
    runLoopAux env mr init a (r + 1) le =
      ⟨.fatal f, (runAttempt env init a le).2⟩ := by
  simp only [runLoopAux, h]

/-- A successful step terminates the loop with its value. -/
lemma runLoopAux_success {β} (env : LoopEnv β) (mr : Nat) (init : Conversation)
    {a r : Nat} {le : Option AttemptError} {v : β}
    (h : (runAttempt env init a le).1 = .ok v) :
    runLoopAux env mr init a (r + 1) le =
      ⟨.success v, (runAttempt env init a le).2⟩ := by
  simp only [runLoopAux, h]

/-- Without a fence, the `codeBlockRegex` cannot match and the string is
left unchanged. -/
lemma stripCodeFence_no_fence {s : String} (h : hasCodeFence s = false) :
    stripCodeFence s = s := by
  unfold hasCodeFence at h
  unfold stripCodeFence
  cases hf : findFence s.toList with
  | none => rfl
  | some p => rw [hf] at h; cases h

/-- Lemma: `_tryToFixJson` always performs exactly one backend call, and that
call targets the primary prompt function. -/
lemma tryToFixJson_eq (env : JsonEnv) (b s e : String) :
    tryToFixJson env b s e = (fixerVerdictOf env, [PromptId.primary]) := rfl

/-- The fixer-call trace of `_parseOrFixJson` is empty or one primary
call. -/
lemma parseOrFixJson_trace (env : JsonEnv) (s schema : String) :
    (parseOrFixJson env s schema).2 = [] ∨
    (parseOrFixJson env s schema).2 = [PromptId.primary] := by
  simp only [parseOrFixJson, tryToFixJson_eq]
  by_cases he : stripCodeFence (jsTrim s) = ""
  · rw [if_pos he]
    exact Or.inl rfl
  · rw [if_neg he]
    cases hp : env.jsParse (stripCodeFence (jsTrim s)) with
    | ok v => exact Or.inl rfl
    | error m =>
      dsimp only
      by_cases hd : env.disableJsonFixer = true
      · rw [if_pos hd]
        exact Or.inl rfl
      · rw [if_neg hd]
        right
        split <;> rename_i heq <;> rw [Prod.mk.injEq] at heq
        · exact heq.2.symm
        · exact heq.2.symm
        · split <;> exact heq.2.symm

/-- The fixer-call trace of `_validateOrFix` is empty or one primary
call. -/
lemma validateOrFix_trace (env : JsonEnv)
    (bv : Option (Json → Except BasicError Json))
    (validator : Json → Except BasicError Json) (schema : String) (d : Json) :
    (validateOrFix env bv validator schema d).2 = [] ∨
    (validateOrFix env bv validator schema d).2 = [PromptId.primary] := by
  simp only [validateOrFix, tryToFixJson_eq]
  cases hf : applyValidation bv validator d with
  | ok v => exact Or.inl rfl
  | error ve =>
    cases ve with
    | schemaValidation m =>
      dsimp only
      by_cases hd : env.disableJsonFixer = true
      · rw [if_pos hd]
        exact Or.inl rfl
      · rw [if_neg hd]
        right
        split <;> rename_i heq <;> rw [Prod.mk.injEq] at heq
        · exact heq.2.symm
        · exact heq.2.symm
        · split <;> exact heq.2.symm
    | retryErr e => exact Or.inl rfl
    | parseErr m => exact Or.inl rfl
    | plainError m => exact Or.inl rfl

/-- The fixer-call trace of `processResponse` is the parse step's trace,
possibly followed by the validation step's trace. -/
lemma processResponse_trace (env : JsonEnv)
    (bv : Option (Json → Except BasicError Json))
    (validator : Json → Except BasicError Json) (schema s : String) :
    (processResponse env bv validator schema s).2 = (parseOrFixJson env s schema).2 ∨
    ∃ d, (processResponse env bv validator schema s).2 =
      (parseOrFixJson env s schema).2 ++ (validateOrFix env bv validator schema d).2 := by
  unfold processResponse
  split <;> rename_i heq
  · exact Or.inl (by rw [heq])
  · exact Or.inl (by rw [heq])
  · rename_i jsonData tr
    split <;> rename_i heq2
    · exact Or.inr ⟨jsonData, by rw [heq, heq2]⟩
    · exact Or.inr ⟨jsonData, by rw [heq, heq2]⟩
    · exact Or.inr ⟨jsonData, by rw [heq, heq2]⟩

/-- Every fixer backend call `processResponse` makes targets the
primary prompt function. -/
lemma processResponse_trace_primary (env : JsonEnv)
    (bv : Option (Json → Except BasicError Json))
    (validator : Json → Except BasicError Json) (schema s : String)
    {pid : PromptId} (h : pid ∈ (processResponse env bv validator schema s).2) :
    pid = PromptId.primary := by
  have hmem : ∀ l, l = [] ∨ l = [PromptId.primary] → pid ∈ l → pid = PromptId.primary := by
    rintro l (rfl | rfl) hm
    · simp at hm
    · simpa using hm
  rcases processResponse_trace env bv validator schema s with ht | ⟨d, ht⟩ <;> rw [ht] at h
  · exact hmem _ (parseOrFixJson_trace env s schema) h
  · rcases List.mem_append.mp h with h | h
    · exact hmem _ (parseOrFixJson_trace env s schema) h
    · exact hmem _ (validateOrFix_trace env bv validator schema d) h

/-! ## The claims -/

/-- Claim C1. For every `maxRetries = n ≥ 0` passed to the retry loop, the
main-loop backend prompt function is invoked at most `n+1` times
(fixer calls are recorded separately and not counted), and when the
loop exhausts — which happens exactly when all `n+1` attempts fail
recoverably, witnessed by the exact call count `n+1` — it throws the
exhaustion error whose cause is the last attempt's `AttemptError`
(attempt number `n`). -/
theorem C1_retry_budget {β : Type} (env : LoopEnv β) (mr : Nat) (init : Conversation) :
    mainCallCount (runPromptLoop env mr init).events ≤ mr + 1 ∧
    (∀ m c, (runPromptLoop env mr init).outcome = .exhausted m c →
      m = "Operation failed after " ++ toString (mr + 1) ++ " attempts." ∧
      mainCallCount (runPromptLoop env mr init).events = mr + 1 ∧
      ∃ ae, c = some ae ∧ ae.data.attemptNumber = mr) := by
  constructor
  · exact runLoopAux_mainCalls_le env mr init (mr + 1) 0 none
  · intro m c h
    rcases runLoopAux_exhausted env mr init (mr + 1) 0 none m c rfl rfl h with
      ⟨hm, hc1, _, hcount⟩
    refine ⟨hm, hcount, ?_⟩
    cases c with
    | none =>
      exfalso
      simp only [chainNumbersOpt, Nat.zero_add, List.range_succ, List.reverse_append,
        List.reverse_singleton, List.singleton_append] at hc1
      cases hc1
    | some ae =>
      refine ⟨ae, rfl, ?_⟩
      have hnum : ae.chainNumbers = (List.range (mr + 1)).reverse := by
        simpa [chainNumbersOpt] using hc1
      have hh : ae.chainNumbers.head? = some ae.data.attemptNumber := by
        cases ae <;> rfl
      rw [hnum, List.range_succ] at hh
      simp only [List.reverse_append, List.reverse_singleton, List.singleton_append,
        List.head?_cons, Option.some.injEq] at hh
      exact hh.symm

/-- Witness for C1: the exhaustion scenario with `maxRetries = 2` makes
exactly 3 main-loop calls and its cause chain head is attempt 2. -/
theorem C1_retry_budget_witness :
    mainCallCount (runPromptLoop scenSchemaFailNoFixerEnv 2 scenInit).events = 3 ∧
    ∃ ae, (runPromptLoop scenSchemaFailNoFixerEnv 2 scenInit).outcome.exhaustedCause
        = some ae ∧ ae.data.attemptNumber = 2 := by
  have hex : (runPromptLoop scenSchemaFailNoFixerEnv 2 scenInit).outcome.isExhausted
      = true := by decide
  rcases houtcome : (runPromptLoop scenSchemaFailNoFixerEnv 2 scenInit).outcome with
    v | f | ⟨m, c⟩ | msg
  · rw [houtcome] at hex; cases hex
  · rw [houtcome] at hex; cases hex
  · rcases (C1_retry_budget scenSchemaFailNoFixerEnv 2 scenInit).2 m c houtcome with
      ⟨_, hcount, ae, hc, hn⟩
    refine ⟨hcount, ae, ?_, hn⟩
    exact hc
  · rw [houtcome] at hex; cases hex

/-- Claim C8. With `maxRetries = 2` and every attempt failing recoverably,
the exhausted outcome's cause chain holds exactly three `AttemptError`s
whose `attemptNumber`s read `[2, 1, 0]` when traversed from the root
(`[0, 1, 2]` oldest-to-newest once reversed); the chain depth, 3, equals
the number of recoverable failures — one per main-loop backend call. -/
theorem C8_exhausted_chain :
    (runPromptLoop scenSchemaFailNoFixerEnv 2 scenInit).outcome.isExhausted = true ∧
    chainNumbersOpt
      (runPromptLoop scenSchemaFailNoFixerEnv 2 scenInit).outcome.exhaustedCause
      = [2, 1, 0] ∧
    (chainNumbersOpt
      (runPromptLoop scenSchemaFailNoFixerEnv 2 scenInit).outcome.exhaustedCause).reverse
      = [0, 1, 2] ∧
    chainLengthOpt
      (runPromptLoop scenSchemaFailNoFixerEnv 2 scenInit).outcome.exhaustedCause = 3 ∧
    mainCallCount (runPromptLoop scenSchemaFailNoFixerEnv 2 scenInit).events = 3 := by
  decide

/-- Claim C2, counterexample. The claim says an empty backend response is
"always recoverable … counted against the retry budget, never propagated
as a fatal error".  On the code, the backend answering `""` with
`maxRetries = 3` produces a **fatal** outcome after a single main-loop
call: `_parseOrFixJson` throws a plain `Error`, not a `SyntaxError`, so
`processResponse` does not wrap it as `JSON_PARSE_ERROR` feedback and
the loop's catch wraps it as `LlmFatalError`. -/
theorem C2_empty_string_counterexample :
    (runPromptLoop scenEmptyEnv 3 scenInit).outcome.fatalPart =
      some ⟨"LLM returned an empty string.",
        some (.plainError "LLM returned an empty string."), scenInit, none⟩ ∧
    mainCallCount (runPromptLoop scenEmptyEnv 3 scenInit).events = 1 ∧
    (runPromptLoop scenEmptyEnv 3 scenInit).outcome.isExhausted = false := by
  decide

/-- Claim C2, amended. An empty string (after trimming and
fence-stripping — by the truthiness guard on the capture this means a
response that is whitespace-only, since an all-whitespace fenced block
is left unstripped) is rejected before any parse attempt with the
distinct error "LLM returned an empty string." and zero fixer calls;
but that error is a plain `Error`, not a `SyntaxError`, so
`processResponse` rethrows it unwrapped (not as `JSON_PARSE_ERROR`
feedback) and the retry loop's catch turns it into a fatal error
carrying the current conversation — it is never coerced to an empty
object, and it is *not* recoverable. -/
theorem C2_empty_string_amended (env : JsonEnv)
    (bv : Option (Json → Except BasicError Json))
    (validator : Json → Except BasicError Json) (schema s : String)
    (he : stripCodeFence (jsTrim s) = "") :
    parseOrFixJson env s schema =
      (.error (.plainError "LLM returned an empty string."), []) ∧
    (processResponse env bv validator schema s).1 =
      .error (.basic (.plainError "LLM returned an empty string.")) ∧
    (∀ {β : Type} (mode : Mode) (cm : Conversation) (raw : Option String)
       (le : Option AttemptError) (a : Nat),
       (classifyCatch mode cm raw le a
          (.basic (.plainError "LLM returned an empty string.")) : StepResult β) =
         .fatalErr ⟨"LLM returned an empty string.",
           some (.plainError "LLM returned an empty string."), cm, orTruthy raw none⟩) := by
  have h1 : parseOrFixJson env s schema =
      (.error (.plainError "LLM returned an empty string."), []) := by
    simp [parseOrFixJson, he]
  refine ⟨h1, ?_, ?_⟩
  · simp only [processResponse, h1]
  · intro β mode cm raw le a
    rfl

/-- Witness for C2's amended statement: a whitespace-only response
trims to the empty string and is rejected with zero fixer calls.  By
contrast, a fenced all-whitespace block is *not* an empty-string case:
the falsy capture leaves it unstripped, `JSON.parse` fails on it, the
fixer runs once, and the original `SyntaxError` surfaces (the
recoverable `JSON_PARSE_ERROR` route). -/
theorem C2_empty_string_amended_witness :
    stripCodeFence (jsTrim "   ") = "" ∧
    parseOrFixJson jsonEnvCannotFix "   " "schema" =
      (.error (.plainError "LLM returned an empty string."), []) ∧
    stripCodeFence (jsTrim "  ```json\n```  ") = "```json\n```" ∧
    parseOrFixJson jsonEnvCannotFix "  ```json\n```  " "schema" =
      (.error (.parseErr "Unexpected token"), [PromptId.primary]) :=
  ⟨rfl,
   (C2_empty_string_amended jsonEnvCannotFix none ageValidator "schema" "   " rfl).1,
   by rfl, by rfl⟩

/-- Claim C3. Any error thrown during an attempt that is not an
`LlmRetryError` produces no `AttemptError`: the catch wraps it as a
fatal error carrying the current conversation and any captured raw
response, and the loop stops immediately with that fatal outcome and no
further attempts, regardless of remaining retry budget.  Inside
`_validateOrFix`, only a `SchemaValidationError` triggers the fixer
path; every other validator exception bubbles up unchanged with zero
fixer calls. -/
theorem C3_fatal_firewall :
    (∀ {β : Type} (mode : Mode) (cm : Conversation) (raw : Option String)
       (le : Option AttemptError) (a : Nat) (e : Thrown),
       (∀ r, e ≠ .basic (.retryErr r)) →
       ∃ f, (classifyCatch mode cm raw le a e : StepResult β) = .fatalErr f ∧
         f.messages = cm ∧ f.rawResponse = orTruthy raw e.rawResponseField) ∧
    (∀ {β : Type} (env : LoopEnv β) (mr : Nat) (init : Conversation)
       (a r : Nat) (le : Option AttemptError) (f : FatalError),
       (runAttempt env init a le).1 = .fatalErr f →
       (runLoopAux env mr init a (r + 1) le).outcome = .fatal f ∧
       (runLoopAux env mr init a (r + 1) le).events = (runAttempt env init a le).2) ∧
    (∀ (env : JsonEnv) (bv : Option (Json → Except BasicError Json))
       (validator : Json → Except BasicError Json) (schema : String) (d : Json)
       (e : BasicError),
       applyValidation bv validator d = .error e →
       (∀ m, e ≠ .schemaValidation m) →
       validateOrFix env bv validator schema d = (.error e, [])) := by
  refine ⟨?_, ?_, ?_⟩
  · intro β mode cm raw le a e hnr
    cases e with
    | basic b =>
      cases b with
      | retryErr r => exact absurd rfl (hnr r)
      | schemaValidation m => exact ⟨_, rfl, rfl, rfl⟩
      | parseErr m => exact ⟨_, rfl, rfl, rfl⟩
      | plainError m => exact ⟨_, rfl, rfl, rfl⟩
    | fatal g => exact ⟨_, rfl, rfl, rfl⟩
  · intro β env mr init a r le f h
    rw [runLoopAux_fatal env mr init h]
    exact ⟨rfl, rfl⟩
  · intro env bv validator schema d e h1 h2
    cases e with
    | retryErr r => simp [validateOrFix, h1]
    | schemaValidation m => exact absurd rfl (h2 m)
    | parseErr m => simp [validateOrFix, h1]
    | plainError m => simp [validateOrFix, h1]

/-- Witness for C3: a validator throwing a plain `Error("Database
Error")` on attempt 0 aborts a `maxRetries = 3` call immediately as a
fatal error after a single backend call, with zero fixer calls. -/
theorem C3_fatal_firewall_witness :
    (runLoopAux scenDbErrorEnv 3 scenInit 0 4 none).outcome =
      .fatal ⟨"Database Error", some (.plainError "Database Error"), scenInit,
        some "\x7b\"age\": 20\x7d"⟩ ∧
    validateOrFix jsonEnvCannotFix none dbValidator "schema"
      (.obj [("age", .num 20)]) = (.error (.plainError "Database Error"), []) ∧
    mainCallCount (runPromptLoop scenDbErrorEnv 3 scenInit).events = 1 := by
  refine ⟨?_, ?_, by decide⟩
  · exact (C3_fatal_firewall.2.1 scenDbErrorEnv 3 scenInit 0 3 none
      ⟨"Database Error", some (.plainError "Database Error"), scenInit,
        some "\x7b\"age\": 20\x7d"⟩ (by rfl)).1
  · exact C3_fatal_firewall.2.2 jsonEnvCannotFix none dbValidator "schema"
      (.obj [("age", .num 20)]) (.plainError "Database Error") rfl
      (fun m h => by cases h)

/-- Claim C4. Whenever the one-shot fixer is invoked by a parse or
validation failure, the error finally thrown is the original one: if
fixing is disabled, or the fixer's verdict is the `CANNOT_FIX`
sentinel / falsy content, or the fixer's output fails to parse (or, in
`_validateOrFix`, fails the second parse/validation pass), the original
`SyntaxError` / `SchemaValidationError` is rethrown and the fixer's
secondary failure never surfaces. -/
theorem C4_original_error_rethrown :
    (∀ (env : JsonEnv) (s schema msg : String),
       stripCodeFence (jsTrim s) ≠ "" →
       env.jsParse (stripCodeFence (jsTrim s)) = .error msg →
       (env.disableJsonFixer = true ∨
        fixerVerdictOf env = .ok none ∨
        (∃ fixed m2, fixerVerdictOf env = .ok (some fixed) ∧
          env.jsParse fixed = .error m2)) →
       (parseOrFixJson env s schema).1 = .error (.parseErr msg)) ∧
    (∀ (env : JsonEnv) (bv : Option (Json → Except BasicError Json))
       (validator : Json → Except BasicError Json) (schema : String) (d : Json)
       (m : String),
       applyValidation bv validator d = .error (.schemaValidation m) →
       (env.disableJsonFixer = true ∨
        fixerVerdictOf env = .ok none ∨
        (∃ fixed, fixerVerdictOf env = .ok (some fixed) ∧
          ∃ e2, (match env.jsParse fixed with
                 | .error m2 => (Except.error (.parseErr m2) : Except BasicError Json)
                 | .ok fj => applyValidation bv validator fj) = .error e2)) →
       (validateOrFix env bv validator schema d).1 =
         .error (.schemaValidation m)) := by
  constructor
  · intro env s schema msg h0 h1 h2
    simp only [parseOrFixJson, tryToFixJson_eq]
    rw [if_neg h0, h1]
    dsimp only
    by_cases hd : env.disableJsonFixer = true
    · rw [if_pos hd]
    · rw [if_neg hd]
      rcases h2 with hd' | hv | ⟨fixed, m2, hv, hpf⟩
      · exact absurd hd' hd
      · rw [hv]
      · rw [hv]
        dsimp only
        rw [hpf]
  · intro env bv validator schema d m h1 h2
    simp only [validateOrFix, tryToFixJson_eq, h1]
    by_cases hd : env.disableJsonFixer = true
    · rw [if_pos hd]
    · rw [if_neg hd]
      rcases h2 with hd' | hv | ⟨fixed, hv, e2, hs⟩
      · exact absurd hd' hd
      · rw [hv]
      · rw [hv]
        dsimp only
        rw [hs]

/-- Witness for C4: with the fixer answering `CANNOT_FIX`, an
unparsable response yields the original `SyntaxError`, and a
schema-invalid value yields the original `SchemaValidationError`. -/
theorem C4_original_error_rethrown_witness :
    (parseOrFixJson jsonEnvCannotFix "oops" "schema").1 =
      .error (.parseErr "Unexpected token") ∧
    (validateOrFix jsonEnvCannotFix none ageValidator "schema"
      (.obj [("age", .str "twenty")])).1 =
      .error (.schemaValidation "AJV Validation Error: /age must be number") := by
  constructor
  · exact C4_original_error_rethrown.1 jsonEnvCannotFix "oops" "schema"
      "Unexpected token" (by decide) (by rfl) (Or.inr (Or.inl (by rfl)))
  · exact C4_original_error_rethrown.2 jsonEnvCannotFix none ageValidator "schema"
      (.obj [("age", .str "twenty")]) "AJV Validation Error: /age must be number"
      rfl (Or.inr (Or.inl (by rfl)))

/-- Claim C5. For every retry attempt `n > 0`, `constructLlmMessages`
returns the previous `AttemptError`'s conversation snapshot verbatim
followed by exactly one appended user message whose content is exactly
the recoverable error's `message`.  Concretely, after a
schema-validation failure on attempt 0 (system message present, fixer
failing), attempt 1's backend call carries a conversation of length 4 —
system, user, assistant (failed), user (error feedback) — and the
feedback contains the literal text `SCHEMA_VALIDATION_ERROR`. -/
theorem C5_feedback_reconstruction :
    (∀ (init : Conversation) (n : Nat) (pe : AttemptError), n ≠ 0 →
      constructLlmMessages init n (some pe) =
        .ok (pe.data.conversation ++ [userMsg pe.data.error.message])) ∧
    (runPromptLoop scenSchemaFailEnv 1 scenInit).events[2]? =
      some (.mainCall 1 PromptId.primary scenRetryConv) ∧
    scenRetryConv.length = 4 ∧
    scenRetryConv.map Message.role = [Role.system, Role.user, Role.assistant, Role.user] ∧
    (∃ pre post, schemaValidationFeedback "AJV Validation Error: /age must be number" =
      pre ++ "SCHEMA_VALIDATION_ERROR" ++ post) := by
  refine ⟨?_, by decide, by decide, by decide, ?_⟩
  · intro init n pe hn
    unfold constructLlmMessages
    rw [if_neg hn]
  · exact ⟨"Your previous response resulted in an error.\nError Type: ",
      "\nError Details: AJV Validation Error: /age must be number\nThe response was valid JSON but did not conform to the required schema. Please review the errors and the schema to provide a corrected response.",
      by decide⟩

/-- Witness for C5: the reconstruction equation at a concrete previous
attempt error. -/
theorem C5_feedback_reconstruction_witness :
    constructLlmMessages [] 1 (some sampleAttemptError) =
      .ok [userMsg "q", assistantMsg "bad", userMsg "fix it"] :=
  (C5_feedback_reconstruction.1 [] 1 sampleAttemptError (by decide)).trans (by rfl)

/-- A trace without delay events has zero total delay. -/
lemma totalDelay_of_no_delay :
    ∀ evs : List LoopEvent, delayCount evs = 0 → totalDelay evs = 0 := by
  intro evs h
  induction evs with
  | nil => simp [totalDelay]
  | cons e t ih =>
    rw [delayCount, List.countP_cons] at h
    cases e with
    | delay ms => simp at h
    | mainCall a p c =>
      simp only [totalDelay, List.map_cons, List.sum_cons] at ih ⊢
      simp only [delayCount] at ih
      rw [ih (by omega)]
      norm_num
    | fixerCall a p =>
      simp only [totalDelay, List.map_cons, List.sum_cons] at ih ⊢
      simp only [delayCount] at ih
      rw [ih (by omega)]
      norm_num

/-- Claim C6, counterexample. The claim says the retry loop delays by an
exponential backoff (base 1000 ms plus jitter) before each retry.  On
the code, a run that retries once performs its two backend calls with
no timer delay at all: `runPromptLoop` contains no backoff. -/
theorem C6_backoff_counterexample :
    mainCallCount (runPromptLoop scenSchemaFailNoFixerEnv 1 scenInit).events = 2 ∧
    delayCount (runPromptLoop scenSchemaFailNoFixerEnv 1 scenInit).events = 0 ∧
    totalDelay (runPromptLoop scenSchemaFailNoFixerEnv 1 scenInit).events = 0 ∧
    ¬(1000 ≤ totalDelay (runPromptLoop scenSchemaFailNoFixerEnv 1 scenInit).events) := by
  have hd : delayCount (runPromptLoop scenSchemaFailNoFixerEnv 1 scenInit).events = 0 :=
    by decide
  have ht := totalDelay_of_no_delay _ hd
  refine ⟨by decide, hd, ht, ?_⟩
  rw [ht]
  norm_num

/-- Claim C6, amended. `runPromptLoop` never delays between attempts.
The exponential backoff with jitter — base delay 1000 ms, doubling per
attempt, plus up to 20% random jitter — is implemented only by the
transport-level helper `executeWithRetry` (retryUtils.ts), which
`createLlmClient`'s low-level `prompt` uses around the raw API call:
before each of *its* retries `n > 0` it sleeps exactly
`backoffDelay (rand n) n` milliseconds, which lies in
`[1000·2^(n-1), 1.2·1000·2^(n-1))` for `rand n ∈ [0, 1)`. -/
theorem C6_backoff_amended :
    (∀ {β : Type} (env : LoopEnv β) (mr : Nat) (init : Conversation),
      delayCount (runPromptLoop env mr init).events = 0) ∧
    (∀ {D V F : Type} (op : Nat → Option F → Except String D)
       (vap : D → Nat → RetryValidationResult V F) (mr : Nat) (rand : Nat → ℚ)
       (mkF : String → F) (strF : Option F → Option String)
       (a r : Nat) (fb : Option F), 0 < a →
       (executeWithRetryAux op vap mr rand mkF strF a (r + 1) fb).2.head? =
         some (.delay (backoffDelay (rand a) a))) ∧
    (∀ (q : ℚ) (a : Nat), 0 ≤ q → q < 1 →
       1000 * 2 ^ (a - 1) ≤ backoffDelay q a ∧
       backoffDelay q a < 1000 * 2 ^ (a - 1) * (12 / 10)) := by
  refine ⟨?_, ?_, ?_⟩
  · intro β env mr init
    exact runLoopAux_no_delay env mr init (mr + 1) 0 none
  · intro D V F op vap mr rand mkF strF a r fb ha
    simp only [executeWithRetryAux, if_pos ha]
    split
    · split <;> rfl
    · split
      · rfl
      · split
        · rfl
        · split <;> rfl
  · intro q a h0 h1
    unfold backoffDelay
    have hb : (0 : ℚ) < 1000 * 2 ^ (a - 1) := by positivity
    constructor
    · nlinarith
    · nlinarith

/-- Witness for C6's amended statement: with `Math.random() = 1/2`, the
delay `executeWithRetry` sleeps before retry 1 is exactly 1100 ms
(1000 ms backoff + 10% jitter), within the `[1000, 1200)` band. -/
theorem C6_backoff_amended_witness :
    (executeWithRetryAux (fun _ _ => (.error "boom" : Except String Unit))
       (fun _ _ => (⟨false, none, none, false⟩ : RetryValidationResult Unit String))
       3 (fun _ => 1 / 2) (fun s => s) (fun _ => none) 1 2 none).2.head? =
      some (.delay 1100) ∧
    (1000 : ℚ) * 2 ^ (1 - 1) ≤ backoffDelay (1 / 2) 1 ∧
    backoffDelay (1 / 2) 1 < 1000 * 2 ^ (1 - 1) * (12 / 10) := by
  refine ⟨?_, ?_⟩
  · rw [C6_backoff_amended.2.1 (fun _ _ => (.error "boom" : Except String Unit))
      (fun _ _ => (⟨false, none, none, false⟩ : RetryValidationResult Unit String))
      3 (fun _ => 1 / 2) (fun s => s) (fun _ => none) 1 1 none (by norm_num)]
    norm_num [backoffDelay]
  · exact C6_backoff_amended.2.2 (1 / 2) 1 (by norm_num) (by norm_num)

/-- Claim C7. Backend routing: with a fallback configured, attempt 0 uses
the primary prompt in mode `main` and every attempt `n > 0` uses the
fallback prompt in mode `fallback`; without one, every attempt stays on
the primary prompt in mode `main`.  The mode is recorded in each
`AttemptError` and in the `info` handed to the `validate` hook on
success. -/
theorem C7_fallback_routing :
    (∀ {β : Type} (env : LoopEnv β) (mr : Nat) (init : Conversation)
       (a : Nat) (pid : PromptId) (cm : Conversation),
       LoopEvent.mainCall a pid cm ∈ (runPromptLoop env mr init).events →
       pid = expectedPid env.fallbackConfigured a) ∧
    (∀ {β : Type} (env : LoopEnv β) (init : Conversation) (a : Nat)
       (le : Option AttemptError) (ae : AttemptError),
       (runAttempt env init a le).1 = .recoverable ae →
       ae.data.mode = expectedMode env.fallbackConfigured a) ∧
    (∀ fb : Bool, expectedPid fb 0 = PromptId.primary ∧ expectedMode fb 0 = Mode.main) ∧
    (∀ n : Nat, 0 < n →
      expectedPid true n = PromptId.fallbackId ∧ expectedMode true n = Mode.fallback) ∧
    (∀ n : Nat, expectedPid false n = PromptId.primary ∧ expectedMode false n = Mode.main) ∧
    (runPromptLoop scenFallbackEnv 3 scenInit).outcome.successValue.map Info.mode =
      some Mode.fallback ∧
    (runPromptLoop scenFallbackEnv 3 scenInit).outcome.successValue.map
      Info.attemptNumber = some 1 := by
  refine ⟨?_, ?_, ?_, ?_, ?_, by decide, by decide⟩
  · intro β env mr init a pid cm hmem
    rcases runLoopAux_event_mem env mr init (mr + 1) 0 none _ hmem with
      ⟨a', cm', heq⟩ | ⟨a', d, i, pid', hpid, heq⟩
    · cases heq
      rfl
    · cases heq
  · intro β env init a le ae h
    rcases runAttempt_recoverable h with ⟨d, rfl, _, hmode⟩
    have hdata : (mkAttemptError d le).data = d := by cases le <;> rfl
    rw [hdata, hmode]
  · intro fb
    constructor <;> simp [expectedPid, expectedMode]
  · intro n hn
    constructor <;> simp [expectedPid, expectedMode, hn]
  · intro n
    constructor <;> simp [expectedPid, expectedMode]

/-- Witness for C7: in the fallback scenario, the attempt-1 backend
call targets the fallback prompt, as the routing policy dictates. -/
theorem C7_fallback_routing_witness :
    LoopEvent.mainCall 1 PromptId.fallbackId scenNoTextRetryConv ∈
      (runPromptLoop scenFallbackEnv 3 scenInit).events ∧
    PromptId.fallbackId = expectedPid true 1 := by
  have hmem : LoopEvent.mainCall 1 PromptId.fallbackId scenNoTextRetryConv ∈
      (runPromptLoop scenFallbackEnv 3 scenInit).events := by decide
  exact ⟨hmem,
    C7_fallback_routing.1 scenFallbackEnv 3 scenInit 1 PromptId.fallbackId
      scenNoTextRetryConv hmem⟩

/-- Claim C9. On input that is already valid JSON with no code fence and
no surrounding text (so trimming is the identity and the string is
nonempty), `_parseOrFixJson` returns exactly the structural value of a
direct `JSON.parse` with zero backend (fixer) calls; being a pure
function of its input, applying it again to such input returns the same
value. -/
theorem C9_tolerant_parse (env : JsonEnv) (s schema : String) (v : Json)
    (hf : hasCodeFence s = false) (ht : jsTrim s = s) (hne : s ≠ "")
    (hp : env.jsParse s = .ok v) :
    parseOrFixJson env s schema = (.ok v, []) := by
  have hs : stripCodeFence (jsTrim s) = s := by rw [ht, stripCodeFence_no_fence hf]
  simp only [parseOrFixJson, hs]
  rw [if_neg hne, hp]

/-- Witness for C9: a plain JSON object string parses directly with no
fixer call, even though a fixer is configured and would answer. -/
theorem C9_tolerant_parse_witness :
    parseOrFixJson jsonEnvCannotFix "\x7b\"age\": 20\x7d" "schema" =
      (.ok (.obj [("age", .num 20)]), []) :=
  C9_tolerant_parse jsonEnvCannotFix "\x7b\"age\": 20\x7d" "schema"
    (.obj [("age", .num 20)]) (by decide) (by rfl) (by decide) (by rfl)

/-- Claim C10. The fixer's standalone backend call always targets the
primary prompt function captured at client creation, never the
fallback: `_tryToFixJson` performs exactly one primary-prompt call;
every fixer call `processResponse` records is primary; in any retry
loop whose `validate` hook is `promptJson`'s `processResponse`, every
fixer call in the trace is primary even during attempts that the main
loop routes to the fallback prompt — as the concrete fallback scenario
shows (`mainCall` on the fallback, `fixerCall` on the primary, same
attempt). -/
theorem C10_fixer_uses_primary :
    (∀ (env : JsonEnv) (b s e : String),
       tryToFixJson env b s e = (fixerVerdictOf env, [PromptId.primary])) ∧
    (∀ (env : JsonEnv) (bv : Option (Json → Except BasicError Json))
       (validator : Json → Except BasicError Json) (schema s : String)
       (pid : PromptId),
       pid ∈ (processResponse env bv validator schema s).2 →
       pid = PromptId.primary) ∧
    (∀ (env : LoopEnv Json) (jenv : JsonEnv)
       (bv : Option (Json → Except BasicError Json))
       (validator : Json → Except BasicError Json) (schema : String)
       (mr : Nat) (init : Conversation),
       env.validate = processResponseHook jenv bv validator schema →
       ∀ (a : Nat) (pid : PromptId),
         LoopEvent.fixerCall a pid ∈ (runPromptLoop env mr init).events →
         pid = PromptId.primary) ∧
    (LoopEvent.mainCall 1 PromptId.fallbackId scenFallbackFixerRetryConv ∈
       (runPromptLoop scenFallbackFixerEnv 1 scenInit).events ∧
     LoopEvent.fixerCall 1 PromptId.primary ∈
       (runPromptLoop scenFallbackFixerEnv 1 scenInit).events) := by
  refine ⟨fun env b s e => tryToFixJson_eq env b s e, ?_, ?_, by decide, by decide⟩
  · intro env bv validator schema s pid h
    exact processResponse_trace_primary env bv validator schema s h
  · intro env jenv bv validator schema mr init hval a pid hmem
    rcases runLoopAux_event_mem env mr init (mr + 1) 0 none _ hmem with
      ⟨a', cm', heq⟩ | ⟨a', d, i, pid', hpid, heq⟩
    · cases heq
    · cases heq
      rw [hval] at hpid
      cases d with
      | text s => exact processResponse_trace_primary jenv bv validator schema s hpid
      | completion c => simp [processResponseHook] at hpid
      | image p => simp [processResponseHook] at hpid

/-- Witness for C10: applying the loop-level statement to the concrete
fallback-mode attempt whose fixer call is on record. -/
theorem C10_fixer_uses_primary_witness :
    LoopEvent.fixerCall 1 PromptId.primary ∈
      (runPromptLoop scenFallbackFixerEnv 1 scenInit).events ∧
    PromptId.primary = PromptId.primary := by
  have hmem : LoopEvent.fixerCall 1 PromptId.primary ∈
      (runPromptLoop scenFallbackFixerEnv 1 scenInit).events := by decide
  exact ⟨hmem,
    C10_fixer_uses_primary.2.2.1 scenFallbackFixerEnv jsonEnvCannotFix none
      ageValidator "schema" 1 scenInit rfl 1 PromptId.primary hmem⟩

end LlmFns
